import Mathlib

/-!
Verification of the notify-rs notification scheduling engine.

The development shallowly embeds the core of the repository:
  * models.rs   - the notification data model and the time expansion
                  (Notification::create_stored_notifications),
  * db.rs       - the event store (insert_event, delete_events,
                  get_events_to_fire) and the allow-list (UserRepository),
  * bot.rs      - the conversation state machine (handle_callback_query and
                  friends) and the firing loop (run_one_background_loop).

UTC instants (chrono's DateTime<Utc>) are modelled as Int - the number of
seconds since the Unix epoch.  chrono's civil-calendar accessors (weekday,
hour, minute, with_hour, with_minute) are modelled from their documented
semantics over that representation; 1970-01-01 was a Thursday.
-/

/-! ## Time model (chrono DateTime<Utc> over seconds since the Unix epoch) -/

/-- Seconds elapsed since UTC midnight of the instant's day. -/
def secondsOfDayUtc (t : Int) : Int := t % 86400

/-- chrono Timelike::hour of a UTC instant. -/
def hourUtc (t : Int) : Int := secondsOfDayUtc t / 3600

/-- chrono Timelike::minute of a UTC instant. -/
def minuteUtc (t : Int) : Int := secondsOfDayUtc t % 3600 / 60

/-- chrono Datelike::weekday().num_days_from_monday() of a UTC instant
    (Monday = 0 .. Sunday = 6); the epoch day 1970-01-01 was a Thursday (3). -/
def num_days_from_monday (t : Int) : Int := (t / 86400 + 3) % 7

/-- ISO weekday of a UTC instant: Monday = 1 .. Sunday = 7. -/
def isoWeekdayUtc (t : Int) : Int := num_days_from_monday t + 1

/-- Minutes of day, as computed in db.rs: hour() * 60 + minute(). -/
def minutesOfDayUtc (t : Int) : Int := hourUtc t * 60 + minuteUtc t

/-- chrono Duration::days(n), in seconds. -/
def duration_days (n : Int) : Int := n * 86400

/-- chrono Duration::weeks(n), in seconds. -/
def duration_weeks (n : Int) : Int := n * 604800

/-- chrono Timelike::with_hour: replaces the hour component (keeping the
    date, minute and second) and rejects an out-of-range hour. -/
def with_hour (t : Int) (h : Nat) : Option Int :=
  if h ≤ 23 then some (t - hourUtc t * 3600 + (h : Int) * 3600) else none

/-- chrono Timelike::with_minute: replaces the minute component (keeping the
    date, hour and second) and rejects an out-of-range minute. -/
def with_minute (t : Int) (m : Nat) : Option Int :=
  if m ≤ 59 then some (t - minuteUtc t * 60 + (m : Int) * 60) else none

/-- Wrapping u8 subtraction of 1, as performed by the release-mode u8
    arithmetic in models.rs (all listed weekdays are 1..=7, where no wrap
    occurs). -/
def u8_sub_one (x : Nat) : Nat := (x + 255) % 256

/-! ## Data model (models.rs) -/

/-- models.rs Time: an HH:MM time of day carried by relative and recurrent
    notifications (u8 fields). -/
structure Time where
  hours : Nat
  minutes : Nat
deriving DecidableEq

/-- models.rs Notification: the structured notification produced by the
    interpreter.  FormattedTime wraps a DateTime<Utc>, modelled as Int;
    ArrayVec<u8, 7> is modelled as List Nat. -/
inductive Notification where
  | Absolute (text : String) (times : List Int)
  | Relative (text : String) (week : Nat) (days : List Nat) (times : List Time)
  | Recurrent (text : String) (days : Option (List Nat)) (times : List Time)
deriving DecidableEq

/-- models.rs StoredNotification: a firing record before insertion. -/
inductive StoredNotification where
  | Absolute (time : Int)
  | Recurrent (hours : Nat) (minutes : Nat) (days : Option (List Nat))
deriving DecidableEq

/-- models.rs Notification::get_text. -/
def Notification.get_text : Notification → String
  | .Absolute text _ => text
  | .Relative text _ _ _ => text
  | .Recurrent text _ _ => text

/-- models.rs Notification::create_stored_notifications: the Time-Expansion.
    The Relative branch computes the current ISO day of week, rolls the week
    offset to 1 when it is 0 and some listed day is not in the future of the
    current weekday, finds the Monday of the target week, and composes one
    absolute instant per (day, time) pair, dropping pairs whose time of day
    cannot be applied.  All arithmetic is on the DateTime<Utc> value. -/
def Notification.create_stored_notifications (n : Notification) (current_time : Int) :
    List StoredNotification :=
  match n with
  | .Absolute _ times => times.map (fun time => StoredNotification.Absolute time)
  | .Relative _ week days times =>
      let current_day_of_week : Int := num_days_from_monday current_time + 1
      let has_any_day_in_past := days.any (fun day => decide ((day : Int) ≤ current_day_of_week))
      let week' := if week == 0 && has_any_day_in_past then 1 else week
      let monday := current_time
        - duration_days (current_day_of_week - 1)
        + duration_weeks (week' : Int)
      ((days.map (fun x => monday + duration_days ((u8_sub_one x : Nat) : Int))).flatMap
          (fun x => times.map (fun time => (x, time)))).filterMap
        (fun p => ((with_hour p.1 p.2.hours).bind
            (fun y => with_minute y p.2.minutes)).map
          (fun t => StoredNotification.Absolute t))
  | .Recurrent _ days times =>
      times.map (fun x => StoredNotification.Recurrent x.hours x.minutes days)

/-- models.rs EventToFire: the projection returned by the due-query. -/
structure EventToFire where
  event_id : Nat
  user_id : Nat
  text : String
deriving DecidableEq

/-! ## Due-Record Store (db.rs) -/

/-- db.rs Kind: the kind column of an event row. -/
inductive Kind where
  | Absolute
  | Recurrent
deriving DecidableEq

/-- db.rs Event: one row of the event table.  Nullable columns are Options;
    is_deleted is the soft-delete (consumption) flag. -/
structure Event where
  id : Nat
  kind : Kind
  user_id : Nat
  text : String
  time : Option Int
  day : Option Nat
  hour : Option Nat
  minute : Option Nat
  is_deleted : Bool
deriving DecidableEq

/-- The event table together with the next rowid sqlite will assign. -/
structure Db where
  events : List Event
  next_id : Nat
deriving DecidableEq

/-- The WHERE clause of db.rs get_events_to_fire, evaluated on one row with
    SQL NULL semantics (a comparison against a NULL column selects nothing):
    is_deleted = 0 and (kind = 'absolute' and event_time < now or
    kind = 'recurrent' and day = current_day and hour * 60 + minute < minutes),
    where current_day and minutes are taken from the UTC accessors of now. -/
def fire_predicate (current_time : Int) (e : Event) : Bool :=
  let current_day : Int := num_days_from_monday current_time + 1
  let minutes : Int := hourUtc current_time * 60 + minuteUtc current_time
  !e.is_deleted &&
    ((e.kind == Kind.Absolute &&
        match e.time with
        | some t => decide (t < current_time)
        | none => false) ||
     (e.kind == Kind.Recurrent &&
        (match e.day with
         | some d => decide ((d : Int) = current_day)
         | none => false) &&
        (match e.hour, e.minute with
         | some h, some m => decide ((h : Int) * 60 + (m : Int) < minutes)
         | _, _ => false)))

/-- The projection of db.rs get_events_to_fire: id, user_id, event_text. -/
def projectEvent (e : Event) : EventToFire :=
  { event_id := e.id, user_id := e.user_id, text := e.text }

/-- db.rs EventRepository::get_events_to_fire. -/
def get_events_to_fire (db : Db) (current_time : Int) : List EventToFire :=
  (db.events.filter (fire_predicate current_time)).map projectEvent

/-- db.rs EventRepository::delete_events: set is_deleted = 1 on the rows
    whose id is listed. -/
def delete_events (db : Db) (event_ids : List Nat) : Db :=
  { db with
      events := db.events.map (fun e =>
        if event_ids.contains e.id then { e with is_deleted := true } else e) }

/-- One execution of the prepared INSERT of db.rs insert_event.  The loop of
    insert_event runs one execute per Absolute stored notification and one
    per listed day of a Recurrent stored notification. -/
inductive RowPayload where
  | absolute (time : Int)
  | recurrent (day : Nat) (hours : Nat) (minutes : Nat)
deriving DecidableEq

deriving instance DecidableEq for Except

/-- The sequence of INSERT executions performed by db.rs insert_event for a
    list of stored notifications, in loop order: an Absolute notification
    yields one row; a Recurrent one yields one row per listed day, and none
    at all when its day set is None. -/
def payloads : List StoredNotification → List RowPayload
  | [] => []
  | .Absolute t :: rest => .absolute t :: payloads rest
  | .Recurrent _ _ none :: rest => payloads rest
  | .Recurrent h m (some ds) :: rest => ds.map (fun d => .recurrent d h m) ++ payloads rest

/-- The row a single INSERT execution appends, given the rowid sqlite
    assigns to it. -/
def mkRow (user_id : Nat) (text : String) (id : Nat) : RowPayload → Event
  | .absolute t =>
      { id := id, kind := .Absolute, user_id := user_id, text := text,
        time := some t, day := none, hour := none, minute := none,
        is_deleted := false }
  | .recurrent d h m =>
      { id := id, kind := .Recurrent, user_id := user_id, text := text,
        time := none, day := some d, hour := some h, minute := some m,
        is_deleted := false }

/-- The transaction body of db.rs insert_event: execute the INSERTs in
    order, collecting rows and their rowids; `fail k` says whether the k-th
    execute fails, in which case the error propagates out of the closure and
    the uncommitted transaction is rolled back (result none). -/
def txLoop (fail : Nat → Bool) (user_id : Nat) (text : String) :
    List RowPayload → Nat → Nat → Option (List Event × List Nat)
  | [], _, _ => some ([], [])
  | p :: rest, k, next_id =>
      if fail k then none
      else
        match txLoop fail user_id text rest (k + 1) (next_id + 1) with
        | none => none
        | some (rows, ids) => some (mkRow user_id text next_id p :: rows, next_id :: ids)

/-- db.rs EventRepository::insert_event: run every INSERT inside one sqlite
    transaction and commit; on any failure the transaction is dropped
    uncommitted, so the table is unchanged and the error is returned. -/
def insert_event (db : Db) (user_id : Nat) (text : String)
    (stored_notification : List StoredNotification) (fail : Nat → Bool) :
    Db × Except Unit (List Nat) :=
  match txLoop fail user_id text (payloads stored_notification) 0 db.next_id with
  | none => (db, .error ())
  | some (rows, ids) =>
      ({ events := db.events ++ rows, next_id := db.next_id + rows.length }, .ok ids)

/-- The rows insert_event appends on success, ids assigned consecutively. -/
def eventRows (user_id : Nat) (text : String) : List RowPayload → Nat → List Event
  | [], _ => []
  | p :: rest, next_id => mkRow user_id text next_id p :: eventRows user_id text rest (next_id + 1)

/-- Consecutive ids start..start+n-1, in order. -/
def idsFrom (start : Nat) : Nat → List Nat
  | 0 => []
  | n + 1 => start :: idsFrom (start + 1) n

/-! ## Allow-list (db.rs UserRepository) -/

/-- db.rs UserRepository::is_chat_id_valid: membership in the configured
    set of user ids (the FnvHashSet is modelled as a list). -/
def is_chat_id_valid (users : List Nat) (chat_id : Nat) : Bool :=
  users.contains chat_id

/-! ## Conversation state machine (bot.rs) -/

/-- bot.rs State: the per-chat conversation state. -/
inductive State where
  | Idle
  | Parsed (text : String) (notification : Notification)
  | ParsedWithError (text : String)
deriving DecidableEq

/-- bot.rs enum CallbackQuery: the parsed user action carried in callback
    data (named CallbackAction here because models.rs has a CallbackQuery
    struct of the same name). -/
inductive CallbackAction where
  | Repeat
  | Accept
  | Cancel
  | Delete (ids : List Nat)
deriving DecidableEq

/-- Rust str::split(',') over the string's character list: fields between
    commas, in order; the empty string yields one empty field. -/
def split_commas (acc : List Char) : List Char → List (List Char)
  | [] => [acc.reverse]
  | c :: rest =>
      if c = ',' then acc.reverse :: split_commas [] rest
      else split_commas (c :: acc) rest

/-- Rust u64::from_str: an optional leading plus sign followed by at least
    one ASCII digit, value below 2^64. -/
def parse_u64 (cs : List Char) : Option Nat :=
  let t := match cs with | '+' :: rest => rest | _ => cs
  if t.length > 0 && t.all (fun c => c.isDigit) then
    let v := t.foldl (fun acc c => acc * 10 + (c.toNat - 48)) 0
    if v < 2 ^ 64 then some v else none
  else none

/-- bot.rs impl FromStr for CallbackQuery: the three keywords, otherwise a
    comma-separated list of u64 ids; anything else is an
    InvalidCallbackQuery error (modelled as none). -/
def callback_from_str (s : String) : Option CallbackAction :=
  if s = "repeat" then some .Repeat
  else if s = "accept" then some .Accept
  else if s = "cancel" then some .Cancel
  else
    match (split_commas [] s.data).mapM parse_u64 with
    | some ids => some (.Delete ids)
    | none => none

/-- errors.rs BotError, restricted to the variants the embedded handlers
    can produce: InvalidCallbackQuery, and a store (sqlite) failure. -/
inductive BotErrM where
  | invalidCallbackQuery
  | storeFailure
deriving DecidableEq

/-- The collaborator outcomes a single handler invocation can observe:
    the event store, the current instant, the caller's id
    (callback_query.from.id), the interpreter's result for this cycle
    (some on success), whether callback_query.message is attached, and the
    failure pattern of the store's INSERT executes. -/
structure HEnv where
  db : Db
  now : Int
  uid : Nat
  parse_result : Option Notification
  msg_present : Bool
  insert_fail : Nat → Bool

/-- What one handler invocation produces: the Result of
    handle_callback_query (ok carries the answer text and the state sent to
    the state channel; an error aborts before that send, so nothing is
    committed), the event store as left by the call, the ids assigned by an
    insert, and whether the interpreter was invoked. -/
structure HandleOutcome where
  result : Except BotErrM (Option String × State)
  db : Db
  created_ids : List Nat
  parser_called : Bool
deriving DecidableEq

/-- bot.rs BotHandler::repeat: re-run the interpreter on the stored text;
    both outcomes edit the prompt message (needing callback_query.message)
    and yield the corresponding new state. -/
def repeatModel (text : String) (env : HEnv) : HandleOutcome :=
  match env.parse_result with
  | some result =>
      if env.msg_present then
        ⟨.ok (some "Request was repeated", .Parsed text result), env.db, [], true⟩
      else ⟨.error .invalidCallbackQuery, env.db, [], true⟩
  | none =>
      if env.msg_present then
        ⟨.ok (some "Error while parsing command", .ParsedWithError text), env.db, [], true⟩
      else ⟨.error .invalidCallbackQuery, env.db, [], true⟩

/-- bot.rs BotHandler::accept: expand the notification at now, insert the
    records, then edit the prompt message (needing callback_query.message);
    a store failure propagates after the transaction rolled back. -/
def acceptModel (notification : Notification) (env : HEnv) : HandleOutcome :=
  match insert_event env.db env.uid notification.get_text
      (notification.create_stored_notifications env.now) env.insert_fail with
  | (db', .ok ids) =>
      if env.msg_present then
        ⟨.ok (some "Notification accepted", .Idle), db', ids, false⟩
      else ⟨.error .invalidCallbackQuery, db', ids, false⟩
  | (db', .error _) => ⟨.error .storeFailure, db', [], false⟩

/-- bot.rs BotHandler::cancel: delete the prompt message (needing
    callback_query.message); no store mutation. -/
def cancelModel (env : HEnv) : HandleOutcome :=
  if env.msg_present then ⟨.ok (some "Canceled", .Idle), env.db, [], false⟩
  else ⟨.error .invalidCallbackQuery, env.db, [], false⟩

/-- The match of bot.rs handle_callback_query over (state, action), in
    source arm order.  The Delete arm consumes the listed ids in the store
    before requiring callback_query.message; the final catch-all leaves the
    state unchanged with no answer text. -/
def handle_parsed (st : State) (q : CallbackAction) (env : HEnv) : HandleOutcome :=
  match st, q with
  | _, .Cancel => cancelModel env
  | .ParsedWithError text, .Repeat => repeatModel text env
  | .ParsedWithError text, .Accept =>
      ⟨.ok (some "Impossible to accept notification with errors", .ParsedWithError text),
        env.db, [], false⟩
  | .Parsed _ notification, .Accept => acceptModel notification env
  | .Parsed text _, .Repeat => repeatModel text env
  | st, .Delete ids =>
      let db' := delete_events env.db ids
      if env.msg_present then ⟨.ok (some "Notification deleted", st), db', [], false⟩
      else ⟨.error .invalidCallbackQuery, db', [], false⟩
  | st, _ => ⟨.ok (none, st), env.db, [], false⟩

/-- bot.rs BotHandler::handle_callback_query: absent callback data or data
    that fails to parse is an InvalidCallbackQuery error (the handler
    returns Err before any transition); otherwise dispatch on
    (state, action). -/
def handle_callback_query (st : State) (data : Option String) (env : HEnv) : HandleOutcome :=
  match data with
  | none => ⟨.error .invalidCallbackQuery, env.db, [], false⟩
  | some s =>
      match callback_from_str s with
      | none => ⟨.error .invalidCallbackQuery, env.db, [], false⟩
      | some q => handle_parsed st q env

/-! ## Intake loop (bot.rs Bot::run) -/

/-- models.rs Message, restricted to the fields the bot reads. -/
structure MessageM where
  message_id : Nat
  chat_id : Nat
  text : Option String
deriving DecidableEq

/-- models.rs CallbackQuery: the Telegram payload (from.id, the prompt
    message it refers to, and the callback data string). -/
structure CallbackQueryM where
  from_id : Nat
  message : Option MessageM
  data : Option String
deriving DecidableEq

/-- models.rs Update. -/
structure UpdateM where
  update_id : Nat
  message : Option MessageM
  edited_message : Option MessageM
  callback_query : Option CallbackQueryM
deriving DecidableEq

/-- models.rs Update::get_chat_id: the message's chat id, else the edited
    message's, else the callback query's from.id. -/
def UpdateM.get_chat_id (u : UpdateM) : Option Nat :=
  match u.message with
  | some m => some m.chat_id
  | none =>
      match u.edited_message with
      | some m => some m.chat_id
      | none =>
          match u.callback_query with
          | some c => some c.from_id
          | none => none

/-- The collaborator outcomes of one intake dispatch: the current instant,
    the interpreter result used by this invocation, and the store's INSERT
    failure pattern. -/
structure IntakeEnv where
  now : Int
  parse_result : Option Notification
  insert_fail : Nat → Bool

/-- One unit of bot.rs Bot::run's update loop, after the allow-list gate:
    a spawned BotHandler::handle_update against a snapshot of the chat's
    state, followed by the commit of the state the handler sent to the
    state channel.  Returns the conversation-state map, the event store and
    whether the interpreter was invoked.  handle_update prefers the
    callback query; otherwise a message with text runs the interpreter and
    commits Parsed / ParsedWithError under the message's chat id (bot.rs
    BotHandler::handle_message); anything else does nothing. -/
def run_handler (states : Nat → State) (db : Db) (u : UpdateM) (env : IntakeEnv)
    (chat_id : Nat) : (Nat → State) × Db × Bool :=
  let st := states chat_id
  match u.callback_query with
  | some cq =>
      let o := handle_callback_query st cq.data
        ⟨db, env.now, cq.from_id, env.parse_result, cq.message.isSome, env.insert_fail⟩
      (match o.result with
       | .ok (_, st') => Function.update states cq.from_id st'
       | .error _ => states,
       o.db, o.parser_called)
  | none =>
      match u.message with
      | some m =>
          match m.text with
          | some text =>
              let st' := match env.parse_result with
                | some notification => State.Parsed text notification
                | none => State.ParsedWithError text
              (Function.update states m.chat_id st', db, true)
          | none => (states, db, false)
      | none => (states, db, false)

/-- One update of bot.rs Bot::run: updates whose chat id is missing or not
    in the allow-list are skipped before any handling; otherwise the
    handler runs against the snapshot of that chat's state (Idle when the
    map has no entry) and its transition is committed. -/
def run_intake_step (users : List Nat) (states : Nat → State) (db : Db) (u : UpdateM)
    (env : IntakeEnv) : (Nat → State) × Db × Bool :=
  match u.get_chat_id with
  | none => (states, db, false)
  | some chat_id =>
      if is_chat_id_valid users chat_id then run_handler states db u env chat_id
      else (states, db, false)

/-! ## Firing loop (bot.rs Bot::run_one_background_loop) -/

/-- The delivery for-loop of run_one_background_loop: send each event's
    text in order; the first failing send aborts the whole function with
    its error.  Returns the events actually delivered and whether the loop
    completed. -/
def sendLoop (deliver : EventToFire → Bool) : List EventToFire → List EventToFire × Bool
  | [] => ([], true)
  | e :: rest =>
      if deliver e then
        let r := sendLoop deliver rest
        (e :: r.1, r.2)
      else ([], false)

/-- bot.rs Bot::run_one_background_loop: query the due events, collect all
    their ids, deliver each in turn (an individual failure propagates out
    immediately), and only after every delivery succeeded soft-delete the
    whole id batch.  Returns the event store afterwards, the delivered
    events and whether the cycle completed. -/
def run_one_background_loop (db : Db) (now : Int) (deliver : EventToFire → Bool) :
    Db × List EventToFire × Bool :=
  let events_to_fire := get_events_to_fire db now
  let event_ids := events_to_fire.map (fun e => e.event_id)
  let r := sendLoop deliver events_to_fire
  if r.2 then (delete_events db event_ids, r.1, true) else (db, r.1, false)

/-- A concrete Recurrent 23:59 row. -/
def e2359 : Event :=
  { id := 1, kind := .Recurrent, user_id := 2, text := "late",
    time := none, day := some 3, hour := some 23, minute := some 59,
    is_deleted := false }

/-! ## C3: the due-query returns exactly the non-consumed matching records -/

/-- The due condition as the spec states it: a non-consumed record that is
    either Absolute with firesAtUtc strictly before now, or Recurrent with
    dayOfWeek equal to the ISO weekday of now and hour * 60 + minute
    strictly below the minutes-of-day of now. -/
def DueSpec (now : Int) (e : Event) : Prop :=
  e.is_deleted = false ∧
    ((e.kind = Kind.Absolute ∧ ∃ t, e.time = some t ∧ t < now) ∨
     (e.kind = Kind.Recurrent ∧
        ∃ d h m, e.day = some d ∧ e.hour = some h ∧ e.minute = some m ∧
          (d : Int) = isoWeekdayUtc now ∧ (h : Int) * 60 + (m : Int) < minutesOfDayUtc now))

/-- A concrete due Absolute row. -/
def eAbs : Event :=
  { id := 1, kind := .Absolute, user_id := 2, text := "x",
    time := some 0, day := none, hour := none, minute := none,
    is_deleted := false }

/-- A concrete update from chat 7 with a text message. -/
def uForeign : UpdateM :=
  { update_id := 1, message := some ⟨10, 7, some "hi"⟩,
    edited_message := none, callback_query := none }

/-! ## C2: failure handling in the Firing Loop -/

/-- The Firing Loop cycle as claim C2 states it: a record whose delivery
    fails has only its own id excluded from the consume batch of the cycle,
    while every other record of the batch is still delivered and its id
    consumed. -/
def firing_cycle_claimed (db : Db) (now : Int) (deliver : EventToFire → Bool) :
    Db × List EventToFire × Bool :=
  let events := get_events_to_fire db now
  let delivered := events.filter deliver
  (delete_events db (delivered.map (fun e => e.event_id)), delivered, true)

/-- Two due Absolute rows. -/
def db2 : Db :=
  { events :=
      [{ id := 1, kind := .Absolute, user_id := 9, text := "a",
         time := some 0, day := none, hour := none, minute := none, is_deleted := false },
       { id := 2, kind := .Absolute, user_id := 9, text := "b",
         time := some 0, day := none, hour := none, minute := none, is_deleted := false }],
    next_id := 3 }

/-- Delivery succeeds only for event id 2. -/
def deliverOnly2 (e : EventToFire) : Bool := e.event_id == 2

/-- Claim C5's formula for the WeekRelative expansion: with
    currentDow = isoWeekday(now), the effective offset is 1 when
    weekOffset = 0 and at least one listed weekday d satisfies
    d ≤ currentDow, and weekOffset unchanged otherwise; each firing
    instant is mondayOfTargetWeek + (weekday - 1) days with the time of
    day applied, where mondayOfTargetWeek =
    now - (currentDow - 1) days + effectiveOffset weeks. -/
def week_relative_spec (week : Nat) (days : List Nat) (times : List Time) (now : Int) :
    List StoredNotification :=
  let currentDow := isoWeekdayUtc now
  let effectiveOffset : Nat :=
    if week = 0 ∧ ∃ d ∈ days, (d : Int) ≤ currentDow then 1 else week
  let mondayOfTargetWeek :=
    now - duration_days (currentDow - 1) + duration_weeks (effectiveOffset : Int)
  days.flatMap (fun d =>
    times.filterMap (fun time =>
      ((with_hour (mondayOfTargetWeek + duration_days ((d : Int) - 1)) time.hours).bind
          (fun y => with_minute y time.minutes)).map
        (fun t => StoredNotification.Absolute t)))

/-! ## C1: civil-calendar of the composition and of the due-query -/

/-- Following claim C1's words: the WeekRelative composition performed in
    the local civil calendar of a fixed-offset timezone sitting off seconds
    east of UTC - the weekday for the offset rule and the applied
    hour/minute are read on the local clock now + off, and each composed
    local instant is stored normalized back to UTC by subtracting off.
    At off = 0 this is composition in UTC. -/
def relative_stored_local (off : Int) (week : Nat) (days : List Nat) (times : List Time)
    (now : Int) : List StoredNotification :=
  let lnow := now + off
  let current_day_of_week : Int := num_days_from_monday lnow + 1
  let has_any_day_in_past := days.any (fun day => decide ((day : Int) ≤ current_day_of_week))
  let week' := if week == 0 && has_any_day_in_past then 1 else week
  let monday := lnow
    - duration_days (current_day_of_week - 1)
    + duration_weeks (week' : Int)
  ((days.map (fun x => monday + duration_days ((u8_sub_one x : Nat) : Int))).flatMap
      (fun x => times.map (fun time => (x, time)))).filterMap
    (fun p => ((with_hour p.1 p.2.hours).bind
        (fun y => with_minute y p.2.minutes)).map
      (fun t => StoredNotification.Absolute (t - off)))

/-- Following claim C1's words: the due-query's WHERE clause with
    isoWeekday(now) and minutesOfDay(now) evaluated on the local civil
    clock now + off (the stored-instant comparison is between instants and
    is unaffected by the calendar). -/
def fire_predicate_local (off : Int) (current_time : Int) (e : Event) : Bool :=
  let current_day : Int := num_days_from_monday (current_time + off) + 1
  let minutes : Int := hourUtc (current_time + off) * 60 + minuteUtc (current_time + off)
  !e.is_deleted &&
    ((e.kind == Kind.Absolute &&
        match e.time with
        | some t => decide (t < current_time)
        | none => false) ||
     (e.kind == Kind.Recurrent &&
        (match e.day with
         | some d => decide ((d : Int) = current_day)
         | none => false) &&
        (match e.hour, e.minute with
         | some h, some m => decide ((h : Int) * 60 + (m : Int) < minutes)
         | _, _ => false)))

/-- The due-query of claim C1's words over a local civil clock. -/
def get_events_to_fire_local (off : Int) (db : Db) (current_time : Int) : List EventToFire :=
  (db.events.filter (fire_predicate_local off current_time)).map projectEvent

/-- A concrete collaborator environment: empty store, message attached,
    interpreter failing, store never failing. -/
def env6 : HEnv :=
  { db := ⟨[], 1⟩, now := 0, uid := 1, parse_result := none,
    msg_present := true, insert_fail := fun _ => false }

example :
    Notification.create_stored_notifications
      (.Absolute "x" [10, 20]) 0 = [.Absolute 10, .Absolute 20] := by decide

-- Scenario of spec §8: now = Thu 21.07.2022 (ISO dow 4), WeekRelative
-- weekOffset 0, day {5}, time 12:00 keeps offset 0 and fires Friday 12:00.
-- 2022-07-21 22:37:01 UTC = 1658443021; 2022-07-22 12:00:01 UTC = 1658491201
-- (with_hour/with_minute keep the seconds component of now).
example : isoWeekdayUtc 1658443021 = 4 := by decide

example :
    Notification.create_stored_notifications
      (.Relative "x" 0 [5] [⟨12, 0⟩]) 1658443021 = [.Absolute 1658491201] := by decide

example :
    insert_event ⟨[], 1⟩ 7 "x" [.Absolute 5, .Recurrent 9 30 (some [2, 4]), .Absolute 6]
      (fun _ => false) =
    (⟨[mkRow 7 "x" 1 (.absolute 5), mkRow 7 "x" 2 (.recurrent 2 9 30),
       mkRow 7 "x" 3 (.recurrent 4 9 30), mkRow 7 "x" 4 (.absolute 6)], 5⟩,
     .ok [1, 2, 3, 4]) := by decide

example :
    insert_event ⟨[], 1⟩ 7 "x" [.Absolute 5, .Absolute 6] (fun k => k == 1) =
      (⟨[], 1⟩, .error ()) := by decide

example : callback_from_str "accept" = some .Accept := by decide

example : callback_from_str "1,42" = some (.Delete [1, 42]) := by decide

example : callback_from_str "x" = none := by decide

example : callback_from_str "" = none := by decide

/-! ## Helper lemmas -/

theorem secondsOfDayUtc_nonneg (t : Int) : 0 ≤ secondsOfDayUtc t :=
  Int.emod_nonneg t (by norm_num)

theorem secondsOfDayUtc_lt (t : Int) : secondsOfDayUtc t < 86400 :=
  Int.emod_lt_of_pos t (by norm_num)

/-- The minutes-of-day of any instant is at most 23 * 60 + 59. -/
theorem minutesOfDay_le (t : Int) : hourUtc t * 60 + minuteUtc t ≤ 1439 := by
  have h1 := secondsOfDayUtc_nonneg t
  have h2 := secondsOfDayUtc_lt t
  unfold hourUtc minuteUtc
  omega

/-! ## C10: a Recurrent 23:59 record is never due -/

/-- C10: a Recurrent firing record with hour = 23 and minute = 59 is never
    matched by the due-query's WHERE clause at any instant, because the
    strict comparison hour * 60 + minute < minutesOfDay(now) can never hold
    when the left side is the maximum attainable minutes-of-day 1439. -/
theorem recurrent_2359_never_due (now : Int) (e : Event)
    (hk : e.kind = Kind.Recurrent) (hh : e.hour = some 23) (hm : e.minute = some 59) :
    fire_predicate now e = false := by
  have hb := minutesOfDay_le now
  unfold fire_predicate
  rw [hk, hh, hm]
  simp only [Bool.and_eq_false_iff, Bool.or_eq_false_iff]
  refine Or.inr ⟨Or.inl (by decide), Or.inr ?_⟩
  simp only [decide_eq_false_iff_not, not_lt]
  omega

/-- Witness for C10 at a concrete row and instant. -/
theorem recurrent_2359_never_due_witness : fire_predicate 1658443021 e2359 = false :=
  recurrent_2359_never_due 1658443021 e2359 rfl rfl rfl

/-- The WHERE clause of the due-query agrees row-wise with the spec's due
    condition. -/
theorem fire_predicate_iff (now : Int) (e : Event) :
    fire_predicate now e = true ↔ DueSpec now e := by
  rcases e with ⟨id, kind, user_id, text, time, day, hour, minute, is_deleted⟩
  unfold fire_predicate DueSpec isoWeekdayUtc minutesOfDayUtc
  cases kind <;> cases is_deleted <;> cases time <;> cases day <;>
    cases hour <;> cases minute <;> simp

/-- C3: get_events_to_fire(now) returns exactly the projections of the
    table rows satisfying the spec's due condition - non-consumed and
    (Absolute with firesAtUtc < now, or Recurrent with matching ISO weekday
    and hour * 60 + minute < minutesOfDay(now)) - and in particular every
    returned record comes from a row with isConsumed = false. -/
theorem get_events_to_fire_exact (db : Db) (now : Int) (x : EventToFire) :
    (x ∈ get_events_to_fire db now ↔
      ∃ e, e ∈ db.events ∧ DueSpec now e ∧ x = projectEvent e)
    ∧ (x ∈ get_events_to_fire db now →
        ∃ e, e ∈ db.events ∧ e.is_deleted = false ∧ x = projectEvent e) := by
  have hmem : x ∈ get_events_to_fire db now ↔
      ∃ e, e ∈ db.events ∧ DueSpec now e ∧ x = projectEvent e := by
    unfold get_events_to_fire
    simp only [List.mem_map, List.mem_filter, fire_predicate_iff]
    constructor
    · rintro ⟨e, ⟨he, hd⟩, hx⟩
      exact ⟨e, he, hd, hx.symm⟩
    · rintro ⟨e, he, hd, hx⟩
      exact ⟨e, ⟨he, hd⟩, hx.symm⟩
  refine ⟨hmem, fun hx => ?_⟩
  rcases hmem.mp hx with ⟨e, he, hd, hxe⟩
  exact ⟨e, he, hd.1, hxe⟩

/-- Witness for C3: the membership hypothesis discharged at a one-row
    store. -/
theorem get_events_to_fire_exact_witness :
    ∃ e, e ∈ (⟨[eAbs], 2⟩ : Db).events ∧ e.is_deleted = false ∧
      projectEvent eAbs = projectEvent e :=
  (get_events_to_fire_exact ⟨[eAbs], 2⟩ 5 (projectEvent eAbs)).2 (by decide)

/-! ## C9: the allow-list gate discards foreign updates before any handling -/

/-- C9: an update whose chat id is not in the configured allow-list is
    skipped before any handling: the conversation-state map and the event
    store are exactly as if the update had not arrived, and the interpreter
    is never invoked (third component false). -/
theorem invalid_chat_discarded (users : List Nat) (states : Nat → State) (db : Db)
    (u : UpdateM) (env : IntakeEnv) (chat_id : Nat)
    (h1 : u.get_chat_id = some chat_id)
    (h2 : is_chat_id_valid users chat_id = false) :
    run_intake_step users states db u env = (states, db, false) := by
  unfold run_intake_step
  rw [h1]
  simp [h2]

/-- Witness for C9: chat 7 is not in the allow-list [5], so the intake step
    is a no-op. -/
theorem invalid_chat_discarded_witness :
    run_intake_step [5] (fun _ => State.Idle) ⟨[], 1⟩ uForeign ⟨0, none, fun _ => false⟩ =
      ((fun _ => State.Idle), ⟨[], 1⟩, false) :=
  invalid_chat_discarded [5] (fun _ => State.Idle) ⟨[], 1⟩ uForeign
    ⟨0, none, fun _ => false⟩ 7 rfl (by decide)

/-! ## C4: Recurrent with no weekday set -/

/-- C4 counterexample: the expansion of a Recurrent notification with
    daysOfWeek = None is NOT the empty list - it yields one stored
    notification per listed time of day (carrying days = none). -/
theorem recurrent_none_expansion_nonempty :
    Notification.create_stored_notifications (.Recurrent "x" none [⟨12, 0⟩]) 0 ≠ [] := by
  decide

/-- A Recurrent stored notification whose day set is None triggers no
    INSERT execution. -/
theorem payloads_recurrent_none (times : List Time) :
    payloads (times.map (fun x => StoredNotification.Recurrent x.hours x.minutes none)) = [] := by
  induction times with
  | nil => rfl
  | cons t rest ih => simpa [payloads] using ih

/-- Inserting the expansion of a days-less Recurrent notification touches
    no row and returns no id, whatever the store's failure pattern. -/
theorem insert_recurrent_none (db : Db) (user_id : Nat) (txt : String)
    (text : String) (times : List Time) (now : Int) (fail : Nat → Bool) :
    insert_event db user_id txt
      (Notification.create_stored_notifications (.Recurrent text none times) now) fail =
      (db, .ok []) := by
  unfold insert_event
  rw [show Notification.create_stored_notifications (.Recurrent text none times) now =
      times.map (fun x => StoredNotification.Recurrent x.hours x.minutes none) from rfl]
  rw [payloads_recurrent_none]
  simp [txLoop]

/-- C4 amended: the Time-Expansion of a Recurrent notification with
    daysOfWeek = None yields one Recurrent stored notification per listed
    time of day (each carrying days = none), and it is the insertion step
    that then creates zero rows and returns zero ids, so no firing record
    is ever persisted for such a notification. -/
theorem recurrent_none_no_rows (text : String) (times : List Time) (now : Int)
    (db : Db) (user_id : Nat) (txt : String) (fail : Nat → Bool) :
    Notification.create_stored_notifications (.Recurrent text none times) now =
      times.map (fun x => StoredNotification.Recurrent x.hours x.minutes none)
    ∧ insert_event db user_id txt
        (Notification.create_stored_notifications (.Recurrent text none times) now) fail =
      (db, .ok []) :=
  ⟨rfl, insert_recurrent_none db user_id txt text times now fail⟩

/-- C2 counterexample: when delivery of the first due record fails, the
    code delivers nothing further and consumes nothing (the store is left
    unchanged), whereas the claim demands that the second record still be
    delivered and consumed. -/
theorem firing_loop_counterexample :
    (run_one_background_loop db2 100 deliverOnly2).2.1 = [] ∧
    (run_one_background_loop db2 100 deliverOnly2).1 = db2 ∧
    (firing_cycle_claimed db2 100 deliverOnly2).2.1 =
      [{ event_id := 2, user_id := 9, text := "b" }] ∧
    (firing_cycle_claimed db2 100 deliverOnly2).1 ≠ db2 := by decide

/-- The delivery for-loop delivers the longest all-successful prefix and
    completes exactly when every delivery succeeds. -/
theorem sendLoop_eq (deliver : EventToFire → Bool) (l : List EventToFire) :
    sendLoop deliver l = (l.takeWhile deliver, l.all deliver) := by
  induction l with
  | nil => rfl
  | cons e rest ih =>
      unfold sendLoop
      cases h : deliver e <;> simp [h, ih, List.takeWhile_cons]

/-- A list all of whose elements pass the test is its own takeWhile. -/
theorem takeWhile_of_all {α} (p : α → Bool) (l : List α) (h : l.all p = true) :
    l.takeWhile p = l := by
  induction l with
  | nil => rfl
  | cons a rest ih =>
      simp only [List.all_cons, Bool.and_eq_true] at h
      simp [List.takeWhile_cons, h.1, ih h.2]

/-- C2 amended: if every delivery of the batch succeeds, the whole id batch
    is consumed; if any delivery fails, the cycle aborts at the first
    failing record - the records before it were delivered, the failing one
    and all later ones were not, and no id at all is consumed this cycle,
    so the entire batch is retried on the next cycle. -/
theorem firing_loop_aborts_on_failure (db : Db) (now : Int) (deliver : EventToFire → Bool) :
    run_one_background_loop db now deliver =
      (if (get_events_to_fire db now).all deliver = true
       then (delete_events db ((get_events_to_fire db now).map (fun e => e.event_id)),
             get_events_to_fire db now, true)
       else (db, (get_events_to_fire db now).takeWhile deliver, false)) := by
  unfold run_one_background_loop
  simp only [sendLoop_eq]
  cases h : (get_events_to_fire db now).all deliver <;>
    simp [h, takeWhile_of_all]

/-! ## C7: atomic insert with ids in input order -/

/-- The rows appended on success are as many as the INSERT executions. -/
theorem eventRows_length (user_id : Nat) (txt : String) (ps : List RowPayload) (next_id : Nat) :
    (eventRows user_id txt ps next_id).length = ps.length := by
  induction ps generalizing next_id with
  | nil => rfl
  | cons p rest ih => simp [eventRows, ih]

/-- The ids of the appended rows are the consecutive rowids, in row order. -/
theorem eventRows_map_id (user_id : Nat) (txt : String) (ps : List RowPayload) (next_id : Nat) :
    (eventRows user_id txt ps next_id).map (fun e => e.id) = idsFrom next_id ps.length := by
  induction ps generalizing next_id with
  | nil => rfl
  | cons p rest ih =>
      cases p <;> simp [eventRows, idsFrom, mkRow, ih]

/-- When none of the executes fails, the transaction body collects every
    row with consecutive rowids and returns the ids in execution order. -/
theorem txLoop_ok (fail : Nat → Bool) (user_id : Nat) (txt : String) :
    ∀ (ps : List RowPayload) (k next_id : Nat),
      (∀ i, i < ps.length → fail (k + i) = false) →
      txLoop fail user_id txt ps k next_id =
        some (eventRows user_id txt ps next_id, idsFrom next_id ps.length) := by
  intro ps
  induction ps with
  | nil => intro k next_id _; rfl
  | cons p rest ih =>
      intro k next_id h
      have h0 : fail k = false := by simpa using h 0 (by simp)
      have hrest : ∀ i, i < rest.length → fail (k + 1 + i) = false := by
        intro i hi
        have := h (i + 1) (by simpa using Nat.succ_lt_succ hi)
        rwa [show k + (i + 1) = k + 1 + i by omega] at this
      unfold txLoop
      rw [h0, ih (k + 1) (next_id + 1) hrest]
      simp [eventRows, idsFrom]

/-- When some execute fails, the transaction body aborts. -/
theorem txLoop_none (fail : Nat → Bool) (user_id : Nat) (txt : String) :
    ∀ (ps : List RowPayload) (k next_id : Nat),
      (∃ i, i < ps.length ∧ fail (k + i) = true) →
      txLoop fail user_id txt ps k next_id = none := by
  intro ps
  induction ps with
  | nil =>
      rintro k next_id ⟨i, hi, _⟩
      simp at hi
  | cons p rest ih =>
      rintro k next_id ⟨i, hi, hf⟩
      unfold txLoop
      cases h0 : fail k with
      | true => simp
      | false =>
          cases i with
          | zero => rw [Nat.add_zero] at hf; rw [h0] at hf; exact absurd hf (by simp)
          | succ j =>
              rw [ih (k + 1) (next_id + 1)
                ⟨j, by simpa using Nat.lt_of_succ_lt_succ hi,
                  by rwa [show k + 1 + j = k + (j + 1) by omega]⟩]
              simp

/-- C7: insert_event is atomic and order-preserving - when no INSERT
    execution fails, every expanded row is appended with consecutive
    rowids and the returned ids are exactly those rowids in the order of
    the input records (an Absolute record contributing one row, a
    Recurrent record one row per listed day); when any execution fails, the
    transaction rolls back and no row at all is persisted. -/
theorem insert_event_atomic_ordered (db : Db) (user_id : Nat) (txt : String)
    (sns : List StoredNotification) (fail : Nat → Bool) :
    ((∀ i, i < (payloads sns).length → fail i = false) →
        insert_event db user_id txt sns fail =
          ({ events := db.events ++ eventRows user_id txt (payloads sns) db.next_id,
             next_id := db.next_id + (payloads sns).length },
           .ok (idsFrom db.next_id (payloads sns).length)))
    ∧ ((∃ i, i < (payloads sns).length ∧ fail i = true) →
        insert_event db user_id txt sns fail = (db, .error ()))
    ∧ (eventRows user_id txt (payloads sns) db.next_id).map (fun e => e.id) =
        idsFrom db.next_id (payloads sns).length := by
  refine ⟨fun h => ?_, fun h => ?_, eventRows_map_id user_id txt (payloads sns) db.next_id⟩
  · unfold insert_event
    rw [txLoop_ok fail user_id txt (payloads sns) 0 db.next_id (by simpa using h)]
    simp [eventRows_length]
  · unfold insert_event
    rw [txLoop_none fail user_id txt (payloads sns) 0 db.next_id (by simpa using h)]

/-- Witness for C7: the success branch at a concrete store and input. -/
theorem insert_event_atomic_ordered_witness :
    insert_event ⟨[], 1⟩ 7 "x" [.Absolute 5, .Recurrent 9 30 (some [2, 4])] (fun _ => false) =
      ({ events := (⟨[], 1⟩ : Db).events ++
           eventRows 7 "x" (payloads [.Absolute 5, .Recurrent 9 30 (some [2, 4])])
             (⟨[], 1⟩ : Db).next_id,
         next_id := (⟨[], 1⟩ : Db).next_id +
           (payloads [.Absolute 5, .Recurrent 9 30 (some [2, 4])]).length },
       .ok (idsFrom (⟨[], 1⟩ : Db).next_id
         (payloads [.Absolute 5, .Recurrent 9 30 (some [2, 4])]).length)) :=
  (insert_event_atomic_ordered ⟨[], 1⟩ 7 "x"
    [.Absolute 5, .Recurrent 9 30 (some [2, 4])] (fun _ => false)).1 (fun _ _ => rfl)

/-! ## C5: the weekOffset = 0 roll-forward rule -/

theorem map_flatMap_aux {α β γ : Type} (f : α → β) (g : β → List γ) (l : List α) :
    (l.map f).flatMap g = l.flatMap (fun x => g (f x)) := by
  induction l <;> simp [*]

theorem flatMap_filterMap_aux {α β γ : Type} (g : α → List β) (h : β → Option γ)
    (l : List α) : (l.flatMap g).filterMap h = l.flatMap (fun x => (g x).filterMap h) := by
  induction l <;> simp [*]

theorem flatMap_congr_mem {α β : Type} {l : List α} {f g : α → List β}
    (h : ∀ a ∈ l, f a = g a) : l.flatMap f = l.flatMap g := by
  induction l with
  | nil => rfl
  | cons a rest ih =>
      simp only [List.flatMap_cons]
      rw [h a (List.mem_cons_self a rest), ih (fun x hx => h x (List.mem_cons_of_mem a hx))]

/-- For a weekday in the data-model range 1..=7, the wrapping u8 decrement
    is plain subtraction by one. -/
theorem u8_sub_one_cast {d : Nat} (h1 : 1 ≤ d) (h7 : d ≤ 7) :
    ((u8_sub_one d : Nat) : Int) = (d : Int) - 1 := by
  interval_cases d <;> rfl

/-- C5: for listed weekdays within the data model's 1..=7 range, the
    WeekRelative expansion equals the claim's formula: effective offset 1
    exactly when weekOffset = 0 and some listed weekday is ≤ the current
    ISO weekday (the whole notification rolls to the next week), otherwise
    the given weekOffset; each firing date is mondayOfTargetWeek +
    (weekday - 1) days. -/
theorem week_relative_roll_forward (text : String) (week : Nat) (days : List Nat)
    (times : List Time) (now : Int) (hdays : ∀ d ∈ days, 1 ≤ d ∧ d ≤ 7) :
    Notification.create_stored_notifications (.Relative text week days times) now =
      week_relative_spec week days times now := by
  have hcond : ((week == 0 && days.any (fun day =>
      decide ((day : Int) ≤ num_days_from_monday now + 1))) = true) ↔
      (week = 0 ∧ ∃ d ∈ days, (d : Int) ≤ isoWeekdayUtc now) := by
    simp [isoWeekdayUtc, List.any_eq_true]
  simp only [Notification.create_stored_notifications, week_relative_spec, isoWeekdayUtc]
  rw [map_flatMap_aux, flatMap_filterMap_aux]
  rw [if_congr hcond rfl rfl]
  refine flatMap_congr_mem (fun d hd => ?_)
  rw [List.filterMap_map]
  rw [u8_sub_one_cast (hdays d hd).1 (hdays d hd).2]
  simp only [Function.comp_def, isoWeekdayUtc]

/-- Witness for C5 at the spec §8 scenario (Thu 21.07.2022, day {5},
    offset 0 kept). -/
theorem week_relative_roll_forward_witness :
    Notification.create_stored_notifications (.Relative "x" 0 [5] [⟨12, 0⟩]) 1658443021 =
      week_relative_spec 0 [5] [⟨12, 0⟩] 1658443021 :=
  week_relative_roll_forward "x" 0 [5] [⟨12, 0⟩] 1658443021 (by decide)

/-- C1 counterexample: at now = 2023-01-24 14:00:00 UTC (1674568800, a
    Tuesday) the code's expansion of WeekRelative{weekOffset 0, day {6},
    time 12:00} composes 12:00 in UTC (Sat 2023-01-28 12:00:00 UTC,
    1674907200), not 12:00 in the system's configured local civil timezone
    (Israel, standard offset +2h = 7200 s in January), which would store
    Sat 10:00:00 UTC (1674900000). -/
theorem expansion_not_local_civil :
    Notification.create_stored_notifications (.Relative "t" 0 [6] [⟨12, 0⟩]) 1674568800 ≠
      relative_stored_local 7200 0 [6] [⟨12, 0⟩] 1674568800 := by decide

/-- C1 amended: the composition of WeekRelative firing instants and the
    due-query's weekday/minutes-of-day are all evaluated in UTC, not in the
    configured local civil timezone: the code's expansion coincides with
    the local-civil-calendar composition only at offset 0, and likewise the
    due-query. The stored instants are UTC. -/
theorem expansion_and_due_query_in_utc :
    (∀ (text : String) (week : Nat) (days : List Nat) (times : List Time) (now : Int),
        Notification.create_stored_notifications (.Relative text week days times) now =
          relative_stored_local 0 week days times now)
    ∧ (∀ (db : Db) (now : Int), get_events_to_fire db now = get_events_to_fire_local 0 db now) := by
  constructor
  · intro text week days times now
    simp [Notification.create_stored_notifications, relative_stored_local]
  · intro db now
    unfold get_events_to_fire get_events_to_fire_local fire_predicate fire_predicate_local
    simp

/-! ## C6: totality of the callback transition -/

/-- An insert with a never-failing store succeeds with the expanded rows
    and their consecutive ids. -/
theorem insert_event_no_fail (db : Db) (user_id : Nat) (txt : String)
    (sns : List StoredNotification) :
    insert_event db user_id txt sns (fun _ => false) =
      ({ events := db.events ++ eventRows user_id txt (payloads sns) db.next_id,
         next_id := db.next_id + (payloads sns).length },
       .ok (idsFrom db.next_id (payloads sns).length)) :=
  (insert_event_atomic_ordered db user_id txt sns (fun _ => false)).1 (fun _ _ => rfl)

/-- C6 counterexample: the callback data "x" is neither a keyword nor a
    comma-separated id list, and the handler returns an
    InvalidCallbackQuery error - it throws instead of degrading to a no-op
    with no feedback and an unchanged state. -/
theorem malformed_action_throws :
    (handle_callback_query .Idle (some "x") env6).result =
      .error .invalidCallbackQuery := by decide

/-- C6 amended: for every state and every action string that parses as a
    recognized action, the handler (with the prompt message attached and
    the store not failing) returns a defined (feedback, next state) pair,
    and a recognized action in a combination outside the transition table -
    Accept or Repeat in Idle - is a no-op with no feedback and unchanged
    state; but an action string that does not parse (or absent data) makes
    the handler return an InvalidCallbackQuery error, with no transition
    committed, rather than a no-op. -/
theorem transition_total_on_parsed_actions (st : State) (s : String) (env : HEnv)
    (hmsg : env.msg_present = true) (hins : env.insert_fail = fun _ => false) :
    (∀ a, callback_from_str s = some a →
        (∃ fb st', (handle_callback_query st (some s) env).result = .ok (fb, st')) ∧
        ((a = .Accept ∨ a = .Repeat) → st = .Idle →
          (handle_callback_query st (some s) env).result = .ok (none, st)))
    ∧ (callback_from_str s = none →
        (handle_callback_query st (some s) env).result = .error .invalidCallbackQuery) := by
  constructor
  · intro a ha
    have hh : handle_callback_query st (some s) env = handle_parsed st a env := by
      simp only [handle_callback_query]
      rw [ha]
    rw [hh]
    constructor
    · cases a with
      | Repeat =>
          cases st <;> cases hp : env.parse_result <;>
            simp [handle_parsed, repeatModel, hmsg, hp]
      | Accept =>
          cases st <;>
            simp [handle_parsed, acceptModel, hmsg, hins, insert_event_no_fail]
      | Cancel => cases st <;> simp [handle_parsed, cancelModel, hmsg]
      | Delete ids => cases st <;> simp [handle_parsed, hmsg]
    · rintro haa rfl
      rcases haa with rfl | rfl <;> simp [handle_parsed]
  · intro hn
    simp only [handle_callback_query]
    rw [hn]

/-- Witness for C6 at state Idle and the recognized action string
    "accept": the transition is defined and is a no-op. -/
theorem transition_total_witness :
    (∃ fb st', (handle_callback_query .Idle (some "accept") env6).result = .ok (fb, st')) ∧
    ((CallbackAction.Accept = .Accept ∨ CallbackAction.Accept = .Repeat) →
      State.Idle = .Idle →
      (handle_callback_query .Idle (some "accept") env6).result = .ok (none, .Idle)) :=
  (transition_total_on_parsed_actions .Idle "accept" env6 rfl rfl).1 .Accept (by decide)

/-! ## C8: Accept of a Recurrent notification with no weekday set -/

/-- C8: Accept in a Parsed state holding a Recurrent notification with
    daysOfWeek = None leaves the store untouched (zero rows created), the
    insert returns zero ids, and the conversation moves to Idle with the
    acceptance feedback. -/
theorem accept_recurrent_none (text rtext : String) (times : List Time) (env : HEnv)
    (hmsg : env.msg_present = true) :
    handle_callback_query (.Parsed text (.Recurrent rtext none times)) (some "accept") env =
      ⟨.ok (some "Notification accepted", .Idle), env.db, [], false⟩ := by
  simp only [handle_callback_query]
  rw [show callback_from_str "accept" = some .Accept from by decide]
  simp [handle_parsed, acceptModel,
    insert_recurrent_none env.db env.uid
      (Notification.get_text (.Recurrent rtext none times)) rtext times env.now
      env.insert_fail,
    hmsg]

/-- Witness for C8 at a concrete Parsed state and environment. -/
theorem accept_recurrent_none_witness :
    handle_callback_query (.Parsed "a" (.Recurrent "b" none [⟨1, 2⟩])) (some "accept") env6 =
      ⟨.ok (some "Notification accepted", .Idle), env6.db, [], false⟩ :=
  accept_recurrent_none "a" "b" [⟨1, 2⟩] env6 rfl
